import Mathlib

/-!
Shallow embedding of the jn-dash aggregation/refresh engine (src/main.py).

Minutes are modelled as exact rationals. The timezone conversion
(pandas tz_convert to America/Santiago) is an external collaborator and is
modelled as an explicit function `tz` from UTC epoch-milliseconds to local
wall-clock epoch-milliseconds; day bucketing, day names and hours are then
derived from the local milliseconds the way pandas derives them from the
localized timestamp.

Pandas semantics captured here:
- groupby with default sort=True returns groups sorted by key ascending and
  drops rows whose group key is null (NaN);
- Series.unique returns values in first-occurrence order, nulls included;
- an empty selection list is falsy, so the time-series callback skips the
  category filter entirely;
- the initial frames are pd.DataFrame() with no columns at all, so any
  column access on them raises KeyError.
-/

/-- Raw record as returned by the record source (select * from logs).
none in a timestamp field models a non-numeric value; none in
category models an absent/null category (pandas NaN). -/
structure Raw where
  category : Option String
  init_time_ms : Option Int
  end_time_ms : Option Int
deriving DecidableEq

/-- Normalized record: a row of the DataFrame produced by load_data.
Every row of a loaded frame has numeric timestamps. -/
structure Rec where
  category : Option String
  init_time_ms : Int
  end_time_ms : Int
deriving DecidableEq

/-- Line 32: df["minutes"] = (df["end_time_ms"] - df["init_time_ms"]) / 60_000. -/
def Rec.minutes (r : Rec) : ℚ :=
  ((r.end_time_ms - r.init_time_ms : Int) : ℚ) / 60000

/-- Lines 34-38: the localized timestamp, as local wall-clock epoch ms. -/
def Rec.dateMs (tz : Int → Int) (r : Rec) : Int :=
  tz r.init_time_ms

/-- Calendar-day bucket of the localized timestamp (pd.Grouper freq="D"). -/
def Rec.dayIndex (tz : Int → Int) (r : Rec) : Int :=
  (r.dateMs tz).fdiv 86400000

/-- Hour of day of the localized timestamp (Series.dt.hour). -/
def Rec.hourOf (tz : Int → Int) (r : Rec) : Int :=
  ((r.dateMs tz).fdiv 3600000).emod 24

/-- Day-of-week name of an epoch-day index (Series.dt.day_name); epoch day 0,
1970-01-01, was a Thursday. -/
def dayName (d : Int) : String :=
  match (d.emod 7).toNat with
  | 0 => "Thursday"
  | 1 => "Friday"
  | 2 => "Saturday"
  | 3 => "Sunday"
  | 4 => "Monday"
  | 5 => "Tuesday"
  | _ => "Wednesday"

/-- Series.unique: the distinct values of a list in first-occurrence order. -/
def firstUniq {α : Type} [DecidableEq α] (l : List α) : List α :=
  l.foldl (fun acc a => if a ∈ acc then acc else acc ++ [a]) []

/-- groupby(keys)[col].sum().reset_index() with the default sort=True:
the distinct keys sorted ascending, each paired with the sum of the values
carrying that key. Rows with a null key have already been dropped by the
caller (pandas groupby drops NaN keys). -/
def groupSum {κ : Type} [DecidableEq κ] (le : κ → κ → Prop) [DecidableRel le]
    (l : List (κ × ℚ)) : List (κ × ℚ) :=
  (List.insertionSort le (l.map Prod.fst).dedup).map
    (fun k => (k, ((l.filter (fun p => p.1 = k)).map Prod.snd).sum))

/-- Key-value pairs for the category grouping; records with a null category
are dropped, as pandas groupby does with NaN keys. -/
def catPairs (recs : List Rec) : List (String × ℚ) :=
  recs.filterMap (fun r => r.category.map (fun c => (c, r.minutes)))

/-- Line 112: data.groupby("category")["minutes"].sum().reset_index(). -/
def totalsByCategory (recs : List Rec) : List (String × ℚ) :=
  groupSum (fun a b => a ≤ b) (catPairs recs)

/-- Lexicographic order on (day, category) keys, as pandas sorts groups. -/
def trendLe (p q : Int × String) : Prop :=
  p.1 < q.1 ∨ (p.1 = q.1 ∧ p.2 ≤ q.2)

instance : DecidableRel trendLe := fun p q => by
  unfold trendLe
  infer_instance

/-- Key-value pairs for the (day, category) grouping. -/
def dayCatPairs (tz : Int → Int) (recs : List Rec) : List ((Int × String) × ℚ) :=
  recs.filterMap (fun r => r.category.map (fun c => ((r.dayIndex tz, c), r.minutes)))

/-- Lines 160-162: the category filter of the time-series callback. An empty
(falsy) selection skips the filter entirely. -/
def trendFilter (sel : List (Option String)) (recs : List Rec) : List Rec :=
  if sel.isEmpty then recs else recs.filter (fun r => sel.contains r.category)

/-- Lines 160-168: filter by selected categories, then group by
(calendar day, category) summing minutes. -/
def dailyTrend (tz : Int → Int) (sel : List (Option String)) (recs : List Rec) :
    List ((Int × String) × ℚ) :=
  groupSum trendLe (dayCatPairs tz (trendFilter sel recs))

/-- Lexicographic order on (day_of_week, hour, category) keys: pandas sorts
the day_of_week level alphabetically since it is a plain string column. -/
def heatLe (p q : String × Int × String) : Prop :=
  p.1 < q.1 ∨ (p.1 = q.1 ∧ (p.2.1 < q.2.1 ∨ (p.2.1 = q.2.1 ∧ p.2.2 ≤ q.2.2)))

instance : DecidableRel heatLe := fun p q => by
  unfold heatLe
  infer_instance

/-- Key-value pairs for the heatmap grouping, after the sleep filter of
line 189; null categories are then dropped by groupby. -/
def heatPairs (tz : Int → Int) (recs : List Rec) : List ((String × Int × String) × ℚ) :=
  (recs.filter (fun r => r.category ≠ some "sleep")).filterMap
    (fun r => r.category.map (fun c => ((dayName (r.dayIndex tz), r.hourOf tz, c), r.minutes)))

/-- Lines 185-190: drop sleep, derive day_of_week and hour, group by
(day_of_week, hour, category) summing minutes. -/
def heatmap (tz : Int → Int) (recs : List Rec) : List ((String × Int × String) × ℚ) :=
  groupSum heatLe (heatPairs tz recs)

/-- Line 150: data["category"].unique().tolist(). -/
def availableCategories (recs : List Rec) : List (Option String) :=
  firstUniq (recs.map (fun r => r.category))

/-- The two module-level globals of lines 20-22. none models the initial
pd.DataFrame() with no columns at all. -/
structure St where
  data : Option (List Rec)
  category_totals : Option (List (String × ℚ))
deriving DecidableEq

/-- Lines 21-22: data = pd.DataFrame(); category_totals = pd.DataFrame(). -/
def initialSt : St :=
  ⟨none, none⟩

/-- Normalization of one raw row whose timestamps are numeric. -/
def normRaw (r : Raw) : Rec :=
  ⟨r.category, r.init_time_ms.getD 0, r.end_time_ms.getD 0⟩

/-- Lines 25-39: pd.read_sql then the two derived columns. A source failure
propagates; a non-numeric timestamp anywhere makes the whole-column
arithmetic of line 32 raise, so the whole load fails. A null category is
untouched by load_data. -/
def load_data (src : Except String (List Raw)) : Except String (List Rec) :=
  match src with
  | .error e => .error e
  | .ok raws =>
    if raws.any (fun r => r.init_time_ms.isNone || r.end_time_ms.isNone) then
      .error "TypeError"
    else
      .ok (raws.map normRaw)

/-- Lines 106-113: refresh_data. On success both globals are replaced; on a
load failure the exception propagates before either assignment, so the
state is returned unchanged. -/
def refresh_data (src : Except String (List Raw)) (σ : St) : Except String Unit × St :=
  match load_data src with
  | .error e => (.error e, σ)
  | .ok recs => (.ok (), ⟨some recs, some (totalsByCategory recs)⟩)

/-- The states a concurrent reader of the two globals can observe while
refresh_data runs: line 110 assigns data, line 112 assigns category_totals,
and between the two assignments the new records coexist with the old
totals. On a load failure no assignment happens. -/
def refresh_observable (src : Except String (List Raw)) (σ : St) : List St :=
  match load_data src with
  | .error _ => [σ]
  | .ok recs => [σ, ⟨some recs, σ.category_totals⟩, ⟨some recs, some (totalsByCategory recs)⟩]

/-- Lines 148-153: the dropdown callback; on the initial no-column frame,
data["category"] raises KeyError. -/
def update_dropdown (σ : St) : Except String (List (Option String)) :=
  match σ.data with
  | none => .error "KeyError: category"
  | some recs => .ok (availableCategories recs)

/-- Lines 156-168: the time-series callback. On the initial no-column frame,
a non-empty selection hits data["category"] first (KeyError category);
an empty selection skips the filter and the groupby hits the missing
date column (KeyError date). -/
def update_time_series (tz : Int → Int) (sel : List (Option String)) (σ : St) :
    Except String (List ((Int × String) × ℚ)) :=
  match σ.data with
  | none => .error (if sel.isEmpty then "KeyError: date" else "KeyError: category")
  | some recs => .ok (dailyTrend tz sel recs)

/-- Lines 181-190: the heatmap callback; on the initial no-column frame,
day_data["date"] raises KeyError. -/
def update_heatmap (tz : Int → Int) (σ : St) :
    Except String (List ((String × Int × String) × ℚ)) :=
  match σ.data with
  | none => .error "KeyError: date"
  | some recs => .ok (heatmap tz recs)

/-- The two-record end-to-end scenario of the spec: 10 minutes of work,
then 480 minutes of sleep. -/
def exampleRecs : List Rec :=
  [⟨some "work", 0, 600000⟩, ⟨some "sleep", 600000, 29400000⟩]

/-- Evaluation of the end-to-end scenario: pandas groupby sorts the group
keys, so sleep comes first. -/
theorem totalsByCategory_example :
    totalsByCategory exampleRecs = [("sleep", 480), ("work", 10)] := by
  norm_num +decide [totalsByCategory, groupSum, catPairs, exampleRecs, Rec.minutes,
    List.insertionSort, List.orderedInsert, List.dedup, List.pwFilter,
    List.filterMap_cons, List.filter_cons, Option.map]

theorem foldl_firstUniq_mem {α : Type} [DecidableEq α] (l : List α) (acc : List α) (x : α) :
    x ∈ l.foldl (fun acc a => if a ∈ acc then acc else acc ++ [a]) acc ↔ x ∈ acc ∨ x ∈ l := by
  induction l generalizing acc with
  | nil => simp
  | cons a t ih =>
    simp only [List.foldl_cons, ih, List.mem_cons]
    by_cases h : a ∈ acc
    · simp only [if_pos h]
      constructor
      · rintro (hx | hx)
        · exact Or.inl hx
        · exact Or.inr (Or.inr hx)
      · rintro (hx | hx | hx)
        · exact Or.inl hx
        · exact Or.inl (hx ▸ h)
        · exact Or.inr hx
    · simp only [if_neg h, List.mem_append, List.mem_singleton]
      tauto

theorem mem_firstUniq {α : Type} [DecidableEq α] (l : List α) (x : α) :
    x ∈ firstUniq l ↔ x ∈ l := by
  unfold firstUniq
  rw [foldl_firstUniq_mem]
  simp

theorem groupSum_map_fst {κ : Type} [DecidableEq κ] (le : κ → κ → Prop) [DecidableRel le]
    (l : List (κ × ℚ)) :
    (groupSum le l).map Prod.fst = List.insertionSort le (l.map Prod.fst).dedup := by
  unfold groupSum
  rw [List.map_map]
  exact List.map_id _

theorem mem_groupSum_fst {κ : Type} [DecidableEq κ] (le : κ → κ → Prop) [DecidableRel le]
    (l : List (κ × ℚ)) (k : κ) :
    k ∈ (groupSum le l).map Prod.fst ↔ k ∈ l.map Prod.fst := by
  rw [groupSum_map_fst, (List.perm_insertionSort le _).mem_iff, List.mem_dedup]

theorem nodup_groupSum_fst {κ : Type} [DecidableEq κ] (le : κ → κ → Prop) [DecidableRel le]
    (l : List (κ × ℚ)) : ((groupSum le l).map Prod.fst).Nodup := by
  rw [groupSum_map_fst]
  exact ((List.perm_insertionSort le _).symm.nodup_iff).mp (List.nodup_dedup _)

theorem sum_map_ite_of_nodup {κ : Type} [DecidableEq κ] (ks : List κ) (a : κ) (x : ℚ)
    (hnd : ks.Nodup) :
    (ks.map (fun k => if a = k then x else 0)).sum = if a ∈ ks then x else 0 := by
  induction ks with
  | nil => simp
  | cons b t ih =>
    rw [List.nodup_cons] at hnd
    rw [List.map_cons, List.sum_cons, ih hnd.2]
    by_cases hab : a = b
    · subst hab
      rw [if_pos rfl, if_neg hnd.1, if_pos (List.mem_cons_self a t), add_zero]
    · rw [if_neg hab, zero_add]
      by_cases hat : a ∈ t
      · rw [if_pos hat, if_pos (List.mem_cons_of_mem b hat)]
      · rw [if_neg hat, if_neg (by simp [List.mem_cons, hab, hat])]

theorem sum_groups {κ : Type} [DecidableEq κ] (ks : List κ) (hnd : ks.Nodup)
    (P : κ → Bool) (l : List (κ × ℚ)) (hcov : ∀ p ∈ l, p.1 ∈ ks) :
    ((ks.filter P).map (fun k => ((l.filter (fun p => p.1 = k)).map Prod.snd).sum)).sum
      = ((l.filter (fun p => P p.1)).map Prod.snd).sum := by
  induction l with
  | nil => simp
  | cons p t ih =>
    have hcov' : ∀ q ∈ t, q.1 ∈ ks := fun q hq => hcov q (List.mem_cons_of_mem p hq)
    have hstep : ∀ k : κ,
        (((p :: t).filter (fun q => q.1 = k)).map Prod.snd).sum
          = (if p.1 = k then p.2 else 0) + ((t.filter (fun q => q.1 = k)).map Prod.snd).sum := by
      intro k
      by_cases h : p.1 = k
      · simp [List.filter_cons, h]
      · simp [List.filter_cons, h]
    calc ((ks.filter P).map
            (fun k => (((p :: t).filter (fun q => q.1 = k)).map Prod.snd).sum)).sum
        = ((ks.filter P).map
            (fun k => (if p.1 = k then p.2 else 0)
              + ((t.filter (fun q => q.1 = k)).map Prod.snd).sum)).sum := by
          congr 1
          exact List.map_congr_left (fun k _ => hstep k)
      _ = ((ks.filter P).map (fun k => if p.1 = k then p.2 else 0)).sum
            + ((ks.filter P).map
                (fun k => ((t.filter (fun q => q.1 = k)).map Prod.snd).sum)).sum := by
          rw [← List.sum_map_add]
      _ = (if P p.1 then p.2 else 0) + ((t.filter (fun q => P q.1)).map Prod.snd).sum := by
          rw [ih hcov', sum_map_ite_of_nodup _ _ _ (hnd.filter P)]
          congr 1
          by_cases hmem : p.1 ∈ ks.filter P
          · rw [if_pos hmem]
            rw [List.mem_filter] at hmem
            rw [if_pos hmem.2]
          · rw [if_neg hmem]
            rw [List.mem_filter] at hmem
            push_neg at hmem
            rw [if_neg (hmem (hcov p (List.mem_cons_self p t)))]
      _ = (((p :: t).filter (fun q => P q.1)).map Prod.snd).sum := by
          by_cases h : P p.1
          · simp [List.filter_cons, h]
          · simp [List.filter_cons, h]

theorem groupSum_filter_sum {κ : Type} [DecidableEq κ] (le : κ → κ → Prop) [DecidableRel le]
    (P : κ → Bool) (l : List (κ × ℚ)) :
    (((groupSum le l).filter (fun p => P p.1)).map Prod.snd).sum
      = ((l.filter (fun p => P p.1)).map Prod.snd).sum := by
  unfold groupSum
  rw [List.filter_map, List.map_map]
  have hnd : (List.insertionSort le (l.map Prod.fst).dedup).Nodup :=
    ((List.perm_insertionSort le _).symm.nodup_iff).mp (List.nodup_dedup _)
  have hcov : ∀ p ∈ l, p.1 ∈ List.insertionSort le (l.map Prod.fst).dedup := by
    intro p hp
    rw [(List.perm_insertionSort le _).mem_iff, List.mem_dedup]
    exact List.mem_map_of_mem Prod.fst hp
  have := sum_groups (List.insertionSort le (l.map Prod.fst).dedup) hnd P l hcov
  rw [← this]
  rfl

theorem catPairs_filter_sum (recs : List Rec) (c : String) :
    (((catPairs recs).filter (fun p => p.1 = c)).map Prod.snd).sum
      = (recs.map (fun r => if r.category = some c then r.minutes else 0)).sum := by
  induction recs with
  | nil => simp [catPairs]
  | cons r t ih =>
    rw [List.map_cons, List.sum_cons, ← ih]
    unfold catPairs
    rw [List.filterMap_cons]
    cases hc : r.category with
    | none => simp [hc]
    | some a =>
      by_cases hac : a = c
      · subst hac
        simp [List.filter_cons]
      · simp [List.filter_cons, hac, Option.some.injEq]

theorem dayCatPairs_filter_sum (tz : Int → Int) (recs : List Rec) (c : String) :
    (((dayCatPairs tz recs).filter (fun p => p.1.2 = c)).map Prod.snd).sum
      = (recs.map (fun r => if r.category = some c then r.minutes else 0)).sum := by
  induction recs with
  | nil => simp [dayCatPairs]
  | cons r t ih =>
    rw [List.map_cons, List.sum_cons, ← ih]
    unfold dayCatPairs
    rw [List.filterMap_cons]
    cases hc : r.category with
    | none => simp [hc]
    | some a =>
      by_cases hac : a = c
      · subst hac
        simp [List.filter_cons]
      · simp [List.filter_cons, hac, Option.some.injEq]

theorem trendFilter_avail (recs : List Rec) :
    trendFilter (availableCategories recs) recs = recs := by
  unfold trendFilter
  by_cases h : (availableCategories recs).isEmpty
  · rw [if_pos h]
  · rw [if_neg h]
    apply List.filter_eq_self.mpr
    intro r hr
    exact List.elem_eq_true_of_mem
      ((mem_firstUniq _ _).mpr (List.mem_map_of_mem (fun r => r.category) hr))

theorem trendFilter_nil (recs : List Rec) : trendFilter [] recs = recs := by
  unfold trendFilter
  rfl

theorem heatPairs_cat (tz : Int → Int) (recs : List Rec) :
    ∀ p ∈ heatPairs tz recs, p.1.2.2 ≠ "sleep" := by
  intro p hp
  unfold heatPairs at hp
  rw [List.mem_filterMap] at hp
  obtain ⟨r, hr, hmap⟩ := hp
  rw [List.mem_filter] at hr
  cases hc : r.category with
  | none => rw [hc] at hmap; simp at hmap
  | some a =>
    rw [hc] at hmap
    simp only [Option.map_some', Option.some.injEq] at hmap
    subst hmap
    have hsleep : r.category ≠ some "sleep" := of_decide_eq_true hr.2
    intro hcontra
    apply hsleep
    rw [hc]
    exact congrArg some hcontra

theorem load_data_ok (raws : List Raw)
    (h : ∀ r ∈ raws, r.init_time_ms ≠ none ∧ r.end_time_ms ≠ none) :
    load_data (.ok raws) = .ok (raws.map normRaw) := by
  show (if (raws.any fun r => r.init_time_ms.isNone || r.end_time_ms.isNone) = true then
      Except.error "TypeError" else Except.ok (raws.map normRaw)) = Except.ok (raws.map normRaw)
  rw [if_neg]
  rw [List.any_eq_true]
  push_neg
  intro r hr
  obtain ⟨h1, h2⟩ := h r hr
  cases hi : r.init_time_ms with
  | none => exact absurd hi h1
  | some v =>
    cases he : r.end_time_ms with
    | none => exact absurd he h2
    | some w => simp

theorem load_data_err (raws : List Raw)
    (h : ∃ r ∈ raws, r.init_time_ms = none ∨ r.end_time_ms = none) :
    load_data (.ok raws) = .error "TypeError" := by
  show (if (raws.any fun r => r.init_time_ms.isNone || r.end_time_ms.isNone) = true then
      Except.error "TypeError" else Except.ok (raws.map normRaw)) = Except.error "TypeError"
  rw [if_pos]
  rw [List.any_eq_true]
  obtain ⟨r, hr, hcase⟩ := h
  refine ⟨r, hr, ?_⟩
  rw [Bool.or_eq_true, Option.isNone_iff_eq_none, Option.isNone_iff_eq_none]
  exact hcase

/-- Concrete states for exercising the two-step publication of refresh_data:
the previously published state holds record a, the refresh loads record b. -/
def cexRawB : Raw :=
  ⟨some "b", some 0, some 120000⟩

def cexRecA : Rec :=
  ⟨some "a", 0, 60000⟩

def cexRecB : Rec :=
  ⟨some "b", 0, 120000⟩

def cexOld : St :=
  ⟨some [cexRecA], some (totalsByCategory [cexRecA])⟩

def cexMid : St :=
  ⟨some [cexRecB], some (totalsByCategory [cexRecA])⟩

def cexNew : St :=
  ⟨some [cexRecB], some (totalsByCategory [cexRecB])⟩

/-- C1 counterexample: while refresh_data runs, a reader can observe the
state cexMid holding the new records next to the old category totals,
which is neither the pre-refresh nor the post-refresh state. -/
theorem refresh_atomicity_cex :
    refresh_observable (.ok [cexRawB]) cexOld = [cexOld, cexMid, cexNew]
    ∧ cexMid ≠ cexOld ∧ cexMid ≠ cexNew
    ∧ cexMid.data = cexNew.data ∧ cexMid.category_totals = cexOld.category_totals := by
  have hA : totalsByCategory [cexRecA] = [("a", 1)] := by
    norm_num +decide [totalsByCategory, groupSum, catPairs, cexRecA, Rec.minutes,
      List.insertionSort, List.orderedInsert, List.dedup, List.pwFilter,
      List.filterMap_cons, List.filter_cons, Option.map]
  have hB : totalsByCategory [cexRecB] = [("b", 2)] := by
    norm_num +decide [totalsByCategory, groupSum, catPairs, cexRecB, Rec.minutes,
      List.insertionSort, List.orderedInsert, List.dedup, List.pwFilter,
      List.filterMap_cons, List.filter_cons, Option.map]
  refine ⟨rfl, ?_, ?_, rfl, rfl⟩
  · intro h
    have hd := congrArg St.data h
    unfold cexMid cexOld at hd
    simp [cexRecA, cexRecB] at hd
  · intro h
    have ht := congrArg St.category_totals h
    unfold cexMid cexNew at ht
    rw [hA, hB] at ht
    simp at ht

/-- C1 amended: during one refresh a reader observes the old state, the
final state, or the intermediate state pairing the new records with the old
totals; a state pairing the old records with the new totals is not among
the observable states. -/
theorem refresh_observable_states (src : Except String (List Raw)) (σ : St)
    (recs : List Rec) (h : load_data src = .ok recs) :
    ∀ s ∈ refresh_observable src σ,
      (s.data = σ.data ∧ s.category_totals = σ.category_totals)
      ∨ (s.data = some recs ∧ s.category_totals = σ.category_totals)
      ∨ (s.data = some recs ∧ s.category_totals = some (totalsByCategory recs)) := by
  intro s hs
  unfold refresh_observable at hs
  rw [h] at hs
  simp only [List.mem_cons, List.not_mem_nil, or_false] at hs
  rcases hs with rfl | rfl | rfl
  · exact Or.inl ⟨rfl, rfl⟩
  · exact Or.inr (Or.inl ⟨rfl, rfl⟩)
  · exact Or.inr (Or.inr ⟨rfl, rfl⟩)

theorem refresh_observable_states_witness :
    (cexMid.data = cexOld.data ∧ cexMid.category_totals = cexOld.category_totals)
    ∨ (cexMid.data = some [cexRecB] ∧ cexMid.category_totals = cexOld.category_totals)
    ∨ (cexMid.data = some [cexRecB]
        ∧ cexMid.category_totals = some (totalsByCategory [cexRecB])) :=
  refresh_observable_states (.ok [cexRawB]) cexOld [cexRecB] rfl cexMid
    (List.mem_cons_of_mem _ (List.mem_cons_self _ _))

/-- C2: a failure while pulling from the record source propagates out of
refresh_data, and both globals keep their previous values. -/
theorem refresh_error_preserves_state (src : Except String (List Raw)) (σ : St)
    (e : String) (h : load_data src = .error e) :
    refresh_data src σ = (.error e, σ) := by
  unfold refresh_data
  rw [h]

theorem refresh_error_preserves_state_witness :
    refresh_data (.error "connection refused") cexOld
      = (.error "connection refused", cexOld) :=
  refresh_error_preserves_state (.error "connection refused") cexOld
    "connection refused" rfl

/-- C3 counterexample: one record with a non-numeric timestamp makes the
whole refresh fail instead of being dropped. -/
theorem refresh_malformed_aborts_cex :
    refresh_data (.ok [⟨some "work", none, some 600000⟩]) initialSt
      = (.error "TypeError", initialSt) := rfl

/-- C3 amended: a record with a null category does not abort the refresh
and is kept in the published record set, contributing to no category
total; a record with a non-numeric timestamp aborts the whole refresh and
leaves the published state unchanged. -/
theorem malformed_handling :
    (∀ (σ : St) (raws : List Raw),
      (∃ r ∈ raws, r.init_time_ms = none ∨ r.end_time_ms = none) →
        refresh_data (.ok raws) σ = (.error "TypeError", σ))
    ∧ (∀ (σ : St) (raws : List Raw),
      (∀ r ∈ raws, r.init_time_ms ≠ none ∧ r.end_time_ms ≠ none) →
        refresh_data (.ok raws) σ
          = (.ok (), ⟨some (raws.map normRaw), some (totalsByCategory (raws.map normRaw))⟩)
        ∧ (raws.map normRaw).map (fun r => r.category) = raws.map (fun r => r.category)
        ∧ ∀ p ∈ totalsByCategory (raws.map normRaw),
            ∃ r ∈ raws.map normRaw, r.category = some p.1) := by
  constructor
  · intro σ raws h
    unfold refresh_data
    rw [load_data_err raws h]
  · intro σ raws h
    refine ⟨?_, ?_, ?_⟩
    · unfold refresh_data
      rw [load_data_ok raws h]
    · rw [List.map_map]
      exact List.map_congr_left (fun r _ => rfl)
    · intro p hp
      have hf : p.1 ∈ (totalsByCategory (raws.map normRaw)).map Prod.fst :=
        List.mem_map_of_mem Prod.fst hp
      unfold totalsByCategory at hf
      rw [mem_groupSum_fst, List.mem_map] at hf
      obtain ⟨q, hq, hqe⟩ := hf
      unfold catPairs at hq
      rw [List.mem_filterMap] at hq
      obtain ⟨r, hr, hro⟩ := hq
      refine ⟨r, hr, ?_⟩
      cases hcat : r.category with
      | none =>
        rw [hcat] at hro
        simp at hro
      | some a =>
        rw [hcat] at hro
        simp only [Option.map_some', Option.some.injEq] at hro
        rw [← hqe, ← hro]

theorem malformed_handling_witness :
    refresh_data (.ok [⟨some "w", none, some 5⟩]) initialSt = (.error "TypeError", initialSt)
    ∧ refresh_data (.ok [⟨none, some 0, some 60000⟩]) initialSt
        = (.ok (), ⟨some [⟨none, 0, 60000⟩], some (totalsByCategory [⟨none, 0, 60000⟩])⟩) :=
  ⟨malformed_handling.1 initialSt _ ⟨⟨some "w", none, some 5⟩, List.mem_cons_self _ _, Or.inl rfl⟩,
   (malformed_handling.2 initialSt _ (by decide)).1⟩

/-- C4 counterexample: on the end-to-end scenario the category totals come
out sorted by category name, not in discovery order. -/
theorem totals_discovery_order_cex :
    totalsByCategory exampleRecs ≠ [("work", 10), ("sleep", 480)]
    ∧ totalsByCategory exampleRecs = [("sleep", 480), ("work", 10)] := by
  refine ⟨?_, totalsByCategory_example⟩
  rw [totalsByCategory_example]
  intro h
  simp at h

/-- C4 amended: pandas groupby with its default sort=True returns the
category totals sorted by category name ascending, so the scenario input
yields sleep before work. -/
theorem totalsByCategory_sorted_asc :
    (∀ recs : List Rec, ((totalsByCategory recs).map Prod.fst).Sorted (· < ·))
    ∧ totalsByCategory exampleRecs = [("sleep", 480), ("work", 10)] := by
  constructor
  · intro recs
    unfold totalsByCategory
    rw [groupSum_map_fst]
    have hs : (List.insertionSort (fun a b : String => a ≤ b)
        ((catPairs recs).map Prod.fst).dedup).Sorted (fun a b => a ≤ b) :=
      List.sorted_insertionSort _ _
    have hnd : (List.insertionSort (fun a b : String => a ≤ b)
        ((catPairs recs).map Prod.fst).dedup).Nodup :=
      ((List.perm_insertionSort _ _).symm.nodup_iff).mp (List.nodup_dedup _)
    exact List.Sorted.lt_of_le hs hnd
  · exact totalsByCategory_example

/-- C6: an empty selection means no filter, so the daily trend with an
empty selection equals the daily trend filtered to every category present
in the snapshot. -/
theorem dailyTrend_empty_means_all (tz : Int → Int) (recs : List Rec) :
    dailyTrend tz [] recs = dailyTrend tz (availableCategories recs) recs := by
  unfold dailyTrend
  rw [trendFilter_avail, trendFilter_nil]

theorem totals_filter_sum (recs : List Rec) (c : String) :
    (((groupSum (fun a b : String => a ≤ b) (catPairs recs)).filter
        (fun p => p.1 = c)).map Prod.snd).sum
      = (((catPairs recs).filter (fun p => p.1 = c)).map Prod.snd).sum :=
  groupSum_filter_sum (fun a b => a ≤ b) (fun k => decide (k = c)) (catPairs recs)

theorem trend_filter_sum (tz : Int → Int) (recs : List Rec) (c : String) :
    (((groupSum trendLe (dayCatPairs tz recs)).filter
        (fun p => p.1.2 = c)).map Prod.snd).sum
      = (((dayCatPairs tz recs).filter (fun p => p.1.2 = c)).map Prod.snd).sum :=
  groupSum_filter_sum trendLe (fun k => decide (k.2 = c)) (dayCatPairs tz recs)

/-- C7: for each category, the total reported by totalsByCategory equals
the daily trend over all available categories summed across days. -/
theorem totals_dailyTrend_consistent (tz : Int → Int) (recs : List Rec) (c : String) :
    (((totalsByCategory recs).filter (fun p => p.1 = c)).map Prod.snd).sum
      = (((dailyTrend tz (availableCategories recs) recs).filter
          (fun p => p.1.2 = c)).map Prod.snd).sum := by
  unfold totalsByCategory dailyTrend
  rw [trendFilter_avail]
  rw [totals_filter_sum, trend_filter_sum, catPairs_filter_sum, dayCatPairs_filter_sum]

/-- C8: heatmap buckets never carry the sleep category, and every record
of any other category contributes its (day_of_week, hour, category) key to
the heatmap grouping. -/
theorem heatmap_excludes_sleep (tz : Int → Int) (recs : List Rec) :
    (∀ b ∈ heatmap tz recs, b.1.2.2 ≠ "sleep")
    ∧ (∀ r ∈ recs, ∀ c : String, r.category = some c → c ≠ "sleep" →
        (dayName (r.dayIndex tz), r.hourOf tz, c) ∈ (heatmap tz recs).map Prod.fst) := by
  constructor
  · intro b hb
    unfold heatmap at hb
    have hbf := List.mem_map_of_mem Prod.fst hb
    rw [mem_groupSum_fst, List.mem_map] at hbf
    obtain ⟨p, hp, hpe⟩ := hbf
    rw [← hpe]
    exact heatPairs_cat tz recs p hp
  · intro r hr c hc hcs
    unfold heatmap
    rw [mem_groupSum_fst, List.mem_map]
    refine ⟨((dayName (r.dayIndex tz), r.hourOf tz, c), r.minutes), ?_, rfl⟩
    unfold heatPairs
    rw [List.mem_filterMap]
    refine ⟨r, ?_, ?_⟩
    · rw [List.mem_filter]
      refine ⟨hr, decide_eq_true ?_⟩
      rw [hc]
      intro hx
      exact hcs (Option.some.inj hx)
    · rw [hc]
      rfl

theorem heatmap_excludes_sleep_witness :
    (dayName (Rec.dayIndex (fun t => t) ⟨some "work", 0, 600000⟩),
      Rec.hourOf (fun t => t) ⟨some "work", 0, 600000⟩, "work")
    ∈ (heatmap (fun t => t) exampleRecs).map Prod.fst :=
  (heatmap_excludes_sleep (fun t => t) exampleRecs).2 ⟨some "work", 0, 600000⟩
    (List.mem_cons_self _ _) "work" rfl (by decide)

/-- C9: duration_minutes is exactly the timestamp difference divided by
60000 in exact arithmetic, it is negative whenever end precedes init, and
load_data accepts every numeric record regardless of timestamp order. -/
theorem duration_minutes_exact :
    (∀ r : Rec, r.minutes = ((r.end_time_ms : ℚ) - (r.init_time_ms : ℚ)) / 60000)
    ∧ (∀ r : Rec, r.end_time_ms < r.init_time_ms → r.minutes < 0)
    ∧ (∀ raws : List Raw, (∀ x ∈ raws, x.init_time_ms ≠ none ∧ x.end_time_ms ≠ none) →
        load_data (.ok raws) = .ok (raws.map normRaw)) := by
  refine ⟨?_, ?_, ?_⟩
  · intro r
    unfold Rec.minutes
    push_cast
    rfl
  · intro r hlt
    have hneg : (r.end_time_ms - r.init_time_ms : Int) < 0 := by omega
    unfold Rec.minutes
    apply div_neg_of_neg_of_pos
    · exact_mod_cast hneg
    · norm_num
  · exact fun raws h => load_data_ok raws h

theorem duration_minutes_exact_witness :
    Rec.minutes ⟨some "x", 100, 40⟩ < 0 :=
  duration_minutes_exact.2.1 ⟨some "x", 100, 40⟩ (by decide)

/-- C10: on the initial no-column frames every view raises a missing-column
KeyError instead of returning an empty result, while on any state produced
by a completed refresh every view returns a value. -/
theorem initial_state_views_error :
    update_dropdown initialSt = .error "KeyError: category"
    ∧ (∀ (tz : Int → Int) (sel : List (Option String)),
        update_time_series tz sel initialSt
          = .error (if sel.isEmpty then "KeyError: date" else "KeyError: category"))
    ∧ (∀ tz : Int → Int, update_heatmap tz initialSt = .error "KeyError: date")
    ∧ (∀ (recs : List Rec) (totals : Option (List (String × ℚ))) (tz : Int → Int)
        (sel : List (Option String)),
        update_dropdown ⟨some recs, totals⟩ = .ok (availableCategories recs)
        ∧ update_time_series tz sel ⟨some recs, totals⟩ = .ok (dailyTrend tz sel recs)
        ∧ update_heatmap tz ⟨some recs, totals⟩ = .ok (heatmap tz recs)) :=
  ⟨rfl, fun _ _ => rfl, fun _ => rfl, fun _ _ _ _ => ⟨rfl, rfl, rfl⟩⟩
